import Mathlib

/-!
Verification of the vrpc RPC multiplexing layer (VrpcRemote.js, VrpcAgent.js).

The JavaScript source is shallowly embedded: JS values become the inductive
type `JsVal`, JS objects become association lists in insertion order,
the internal `EventEmitter` correlator becomes an explicit state machine,
and code that can throw returns `Except`/`Option`.
-/

namespace Vrpc

/-- Model of a JavaScript runtime value as it appears in the vrpc wire and
argument handling code.  `func` stands for any callable (the code never
inspects a callable beyond its type tag), `undefined` for `undefined`.  Numbers
are modelled as integers; no claim depends on float behaviour. -/
inductive JsVal where
  | str (s : String)
  | num (n : Int)
  | bool (b : Bool)
  | null
  | undefined
  | func
  | arr (elems : List JsVal)
  | obj (fields : List (String × JsVal))

/-- Property read `o[k]` on a JS object modelled as an assoc list:
a missing key yields `undefined`. -/
def getField (fs : List (String × JsVal)) (k : String) : JsVal :=
  (fs.lookup k).getD .undefined

/-- JS truthiness, as used by checks such as `if (data.e)`. -/
def truthy : JsVal → Bool
  | .str s => !(s == "")
  | .num n => !(n == 0)
  | .bool b => b
  | .null => false
  | .undefined => false
  | .func => true
  | .arr _ => true
  | .obj _ => true

/-- The check `_isFunction` of VrpcRemote.js lines 633-638: the value is
truthy and its type tag is Function or AsyncFunction. -/
def isFunction : JsVal → Bool
  | .func => true
  | _ => false

/-- JS `hasOwnProperty` on a plain object. -/
def hasOwn (fs : List (String × JsVal)) (k : String) : Bool :=
  (fs.lookup k).isSome

/-- The check `_isEmitter` of VrpcRemote.js lines 640-648.  In JS
`typeof null` is the string "object", so `null.hasOwnProperty` is reached
and throws a TypeError; likewise `variable.emitter.emit` throws when the
`emitter` field is `null`.  Those two throw sites are the `.error` cases. -/
def isEmitterE : JsVal → Except Unit Bool
  | .null => .error ()
  | .obj fs =>
    if hasOwn fs "emitter" && hasOwn fs "event" then
      match fs.lookup "emitter" with
      | some .null => .error ()
      | some (.obj efs) =>
        .ok (match efs.lookup "emit" with
             | some .func => true
             | _ => false)
      | _ => .ok false
    else .ok false
  | _ => .ok false

/-- JS string coercion `String(v)` as used by template interpolation.
Only the `str` case is exercised by the theorems below; the remaining
cases are reasonable stand-ins for the JS coercions. -/
def strOfVal : JsVal → String
  | .str s => s
  | .num n => toString n
  | .bool true => "true"
  | .bool false => "false"
  | .null => "null"
  | .undefined => "undefined"
  | .func => "function"
  | .arr _ => ""
  | .obj _ => "[object Object]"

/-- `typeof v === "string"` for an optional value (`args[0]` may be absent). -/
def isStringOpt : Option JsVal → Bool
  | some (.str _) => true
  | _ => false

def strOfOpt (o : Option JsVal) : String :=
  strOfVal (o.getD .undefined)

/-! ## Signature stripping and the proxy method set -/

/-- The `_stripSignature` method of VrpcRemote.js lines 627-631:
`pos = method.indexOf('-'); if (pos > 0) return method.substring(0, pos);
return method`. -/
def stripSignature (method : String) : String :=
  match method.toList.findIdx? (fun c => c = '-') with
  | some pos => if pos > 0 then String.mk (method.toList.take pos) else method
  | none => method

/-- The inline copy of the same stripping code inside `_createProxy`
(VrpcRemote.js lines 514-518). -/
def createProxyStrip (name : String) : String :=
  match name.toList.findIdx? (fun c => c = '-') with
  | some pos => if pos > 0 then String.mk (name.toList.take pos) else name
  | none => name

/-- First-occurrence deduplication with an accumulator of already seen
names; this is the iteration order of a JS `Set` built by insertion. -/
def dedupGo (seen : List String) : List String → List String
  | [] => []
  | x :: xs => if x ∈ seen then dedupGo seen xs else x :: dedupGo (x :: seen) xs

/-- `new Set(functions)` in insertion order (VrpcRemote.js line 520). -/
def dedupKeepFirst (l : List String) : List String :=
  dedupGo [] l

/-- The set of method names installed on a proxy by `_createProxy`
(VrpcRemote.js lines 512-522): strip each captured member function name,
then deduplicate. -/
def proxyMethodNames (memberFunctions : List String) : List String :=
  dedupKeepFirst (memberFunctions.map createProxyStrip)

/-- Result list of `getAvailableMemberFunctions` (VrpcRemote.js line 311)
restricted to the stored memberFunctions list of the addressed class. -/
def availableMemberFunctionNames (memberFunctions : List String) : List String :=
  memberFunctions.map stripSignature

/-- Result list of `getAvailableStaticFunctions` (VrpcRemote.js line 332). -/
def availableStaticFunctionNames (staticFunctions : List String) : List String :=
  staticFunctions.map stripSignature

/-! ## Positional argument packing and callback-data decoding -/

/-- The wire key for the argument at 0-based position `i`:
the template `_${index + 1}` of VrpcRemote.js lines 592, 602, 613, 621. -/
def wireKey (i : Nat) : String :=
  "_" ++ toString (i + 1)

/-- Positional packing `data[_${index + offset}] = value` used by `create`
(VrpcRemote.js lines 121-123) with keys starting at `_${offset}`. -/
def packPositionalFrom (offset : Nat) : List JsVal → List (String × JsVal)
  | [] => []
  | v :: vs => ("_" ++ toString offset, v) :: packPositionalFrom (offset + 1) vs

/-- Positional packing with keys `_1.._N`. -/
def packPositional (args : List JsVal) : List (String × JsVal) :=
  packPositionalFrom 1 args

/-- Lexicographic comparison of char lists by code point, the order used
by the default JS `Array.prototype.sort()` on strings. -/
def charsLt : List Char → List Char → Bool
  | [], [] => false
  | [], _ :: _ => true
  | _ :: _, [] => false
  | x :: xs, y :: ys =>
    if x.val < y.val then true
    else if y.val < x.val then false
    else charsLt xs ys

/-- Lexicographic string comparison by code point. -/
def strLt (a b : String) : Bool :=
  charsLt a.toList b.toList

/-- Insertion step of an ascending lexicographic string sort. -/
def insertSorted (k : String) : List String → List String
  | [] => [k]
  | x :: xs => if strLt x k then x :: insertSorted k xs else k :: x :: xs

/-- Ascending lexicographic sort of string keys, modelling the default
JS `Array.prototype.sort()` on the key array. -/
def sortStrings : List String → List String
  | [] => []
  | x :: xs => insertSorted x (sortStrings xs)

/-- Decoding of tunneled callback data (VrpcRemote.js lines 594-596 and the
two identical copies at lines 604-606 and 615-617):
`Object.keys(data).sort().filter(v => v[0] === '_').map(k => data[k])`. -/
def decodeArgs (data : List (String × JsVal)) : List JsVal :=
  (((sortStrings (data.map Prod.fst)).filter
      (fun k => k.front == '_')).map (fun k => getField data k))

/-! ## Callback and emitter tunneling (`_packData`) -/

/-- `Number.MAX_SAFE_INTEGER`. -/
def maxSafeInteger : Nat := 9007199254740991

/-- The tunnel id template `__f__${proxyId}-${functionName}-${index}-...`
of VrpcRemote.js lines 591, 601, 612. -/
def tunnelId (proxyId functionName : String) (index : Nat) (suffix : String) : String :=
  "__f__" ++ proxyId ++ "-" ++ functionName ++ "-" ++ toString index ++ "-" ++ suffix

/-- Kind of a local tunnel-table entry: `once` callback registrations,
persistent `on`-style registrations, and persistent emitter bridges
(the latter remember the JS `event` value passed to `emitter.emit`). -/
inductive TunnelKind where
  | oneShot
  | persistentOn
  | persistentEmitter (event : JsVal)

def isOneShot : TunnelKind → Bool
  | .oneShot => true
  | _ => false

/-- An invocation of a local sink when tunneled data is delivered. -/
inductive SinkCall where
  | callback (args : List JsVal)
  | emit (event : JsVal) (args : List JsVal)

/-- What a tunnel-table entry does with delivered data: decode the
positional arguments and either call the stored function or re-emit on the
stored emitter (VrpcRemote.js lines 593-597, 603-607, 614-618). -/
def deliverData (k : TunnelKind) (data : List (String × JsVal)) : SinkCall :=
  match k with
  | .persistentEmitter ev => .emit ev (decodeArgs data)
  | _ => .callback (decodeArgs data)

/-- EventEmitter delivery on a tunnel table: every entry registered under
`id` fires; entries registered with `once` are removed, entries registered
with `on` stay. -/
def deliverTunnel (t : List (String × TunnelKind)) (id : String)
    (data : List (String × JsVal)) : List SinkCall × List (String × TunnelKind) :=
  (t.filterMap (fun p => if p.1 = id then some (deliverData p.2 data) else none),
   t.filter (fun p => !(p.1 == id && isOneShot p.2)))

/-- The `event` field of an emitter-pair argument
(`const { emitter, event } = value`, VrpcRemote.js line 611). -/
def eventOf : JsVal → JsVal
  | .obj fs => getField fs "event"
  | _ => .undefined

/-- Does packing the argument at absolute position `index` consume the
shared invoke counter?  Only plain callables outside the special
`on`-registration case do (VrpcRemote.js line 601). -/
def consumesCounter (functionName : String) (arg0 : Option JsVal)
    (index : Nat) (v : JsVal) : Bool :=
  isFunction v && !(functionName == "on" && index == 1 && isStringOpt arg0)

/-- Number of counter-consuming arguments among the first `i` elements of
`rest`, whose head sits at absolute position `idx`. -/
def consumedFrom (functionName : String) (arg0 : Option JsVal) :
    Nat → List JsVal → Nat → Nat
  | _, _, 0 => 0
  | _, [], _ + 1 => 0
  | idx, v :: vs, i + 1 =>
    (if consumesCounter functionName arg0 idx v then 1 else 0) +
      consumedFrom functionName arg0 (idx + 1) vs i

/-- Number of counter-consuming arguments among the first `i` arguments. -/
def consumedBefore (functionName : String) (arg0 : Option JsVal)
    (args : List JsVal) (i : Nat) : Nat :=
  consumedFrom functionName arg0 0 args i

/-- One step of `_packData` (VrpcRemote.js lines 577-625), recursing over the
remaining arguments: `idx` is the absolute argument position, `cnt` the
current `_invokeId`, `arg0` the first element of the full argument list.
Returns the wire data object, the new tunnel registrations (in order) and
the final counter, or `.error` when the JS code throws (see `isEmitterE`). -/
def packGo (proxyId functionName : String) (arg0 : Option JsVal) :
    Nat → Nat → List JsVal →
    Except Unit (List (String × JsVal) × List (String × TunnelKind) × Nat)
  | _, cnt, [] => .ok ([], [], cnt)
  | idx, cnt, v :: vs =>
    if isFunction v then
      if functionName == "on" && idx == 1 && isStringOpt arg0 then
        let id := tunnelId proxyId functionName idx (strOfOpt arg0)
        match packGo proxyId functionName arg0 (idx + 1) cnt vs with
        | .error e => .error e
        | .ok (d, t, c) =>
          .ok ((wireKey idx, .str id) :: d, (id, .persistentOn) :: t, c)
      else
        let id := tunnelId proxyId functionName idx (toString (cnt % maxSafeInteger))
        match packGo proxyId functionName arg0 (idx + 1) (cnt + 1) vs with
        | .error e => .error e
        | .ok (d, t, c) =>
          .ok ((wireKey idx, .str id) :: d, (id, .oneShot) :: t, c)
    else
      match isEmitterE v with
      | .error e => .error e
      | .ok true =>
        let ev := eventOf v
        let id := tunnelId proxyId functionName idx (strOfVal ev)
        match packGo proxyId functionName arg0 (idx + 1) cnt vs with
        | .error e => .error e
        | .ok (d, t, c) =>
          .ok ((wireKey idx, .str id) :: d, (id, .persistentEmitter ev) :: t, c)
      | .ok false =>
        match packGo proxyId functionName arg0 (idx + 1) cnt vs with
        | .error e => .error e
        | .ok (d, t, c) => .ok ((wireKey idx, v) :: d, t, c)

/-- `_packData(proxyId, functionName, ...args)` with initial `_invokeId`
value `c0`. -/
def packData (proxyId functionName : String) (args : List JsVal) (c0 : Nat) :
    Except Unit (List (String × JsVal) × List (String × TunnelKind) × Nat) :=
  packGo proxyId functionName (args.get? 0) 0 c0 args

/-! ## The correlator: pending calls, replies, timeouts -/

/-- Settlement of the promise returned by a pending call. -/
inductive Outcome where
  | ok (v : JsVal)
  | err (e : JsVal)

/-- The timeout message of `_handleAgentAnswer` (VrpcRemote.js line 546). -/
def timeoutMsg (T : Nat) : String :=
  "Function call timed out (> " ++ toString T ++ " ms)"

/-- The timeout message of `_getProxy` (VrpcRemote.js line 484). -/
def proxyTimeoutMsg (T : Nat) : String :=
  "Proxy creation timed out (> " ++ toString T ++ " ms)"

/-- The promise-token test of VrpcRemote.js line 561:
`typeof ret === 'string' && ret.substr(0, 5) === '__p__'`; returns the
token when the test passes. -/
def promiseTokenOf : JsVal → Option String
  | .str s => if s.take 5 = "__p__" then some s else none
  | _ => none

/-- State of one pending call registered by `_handleAgentAnswer`
(VrpcRemote.js lines 544-575).  `waitingReply` is the presence of the
`once` listener under the correlation id, `timerArmed` the pending
`setTimeout`, `waitingPromise` the presence of the chained `once` listener
under a promise token.  The two `completedBy` fields are ghost flags
recording which of the two completion paths fired. -/
structure CallState where
  waitingReply : Bool
  timerArmed : Bool
  waitingPromise : Option String
  outcome : Option Outcome
  completedByReply : Bool
  completedByTimeout : Bool

/-- The state right after `_handleAgentAnswer` registered the timer and the
one-shot listener together. -/
def initCall : CallState :=
  { waitingReply := true, timerArmed := true, waitingPromise := none,
    outcome := none, completedByReply := false, completedByTimeout := false }

/-- An event observable by a pending call: an emission of the internal
event emitter for some id (an inbound broker message routed by
correlation id), or the firing of the timeout timer. -/
inductive WireEv where
  | msg (id : String) (data : List (String × JsVal))
  | timeout

/-- One transition of a pending `_handleAgentAnswer` call.  Mirrors
VrpcRemote.js lines 544-575: the timer removes all listeners for the id
and rejects with the timeout message; a reply consumes the `once`
listener, clears the timer and rejects on truthy `data.e`, chains on a
`__p__` token, or resolves with `data.r`; a message under the stored
token settles the chained promise. -/
def callStep (T : Nat) (cid : String) (s : CallState) (e : WireEv) : CallState :=
  match e with
  | .timeout =>
    if s.timerArmed then
      { s with waitingReply := false, timerArmed := false,
               outcome := some (.err (.str (timeoutMsg T))),
               completedByTimeout := true }
    else s
  | .msg id d =>
    if id = cid ∧ s.waitingReply = true then
      let base := { s with waitingReply := false, timerArmed := false,
                           completedByReply := true }
      if truthy (getField d "e") then
        { base with outcome := some (.err (getField d "e")) }
      else
        match promiseTokenOf (getField d "r") with
        | some t => { base with waitingPromise := some t }
        | none => { base with outcome := some (.ok (getField d "r")) }
    else if s.waitingPromise = some id then
      let base := { s with waitingPromise := none }
      if truthy (getField d "e") then
        { base with outcome := some (.err (getField d "e")) }
      else
        { base with outcome := some (.ok (getField d "r")) }
    else s

/-- A trace of emitter and timer events applied to a fresh pending call. -/
def runCall (T : Nat) (cid : String) (evs : List WireEv) : CallState :=
  evs.foldl (callStep T cid) initCall

/-- State of one pending proxy-creation request registered by `_getProxy`
(VrpcRemote.js lines 483-501); same shape without promise chaining. -/
structure ProxyCallState where
  waitingReply : Bool
  timerArmed : Bool
  outcome : Option Outcome
  completedByReply : Bool
  completedByTimeout : Bool

def initProxyCall : ProxyCallState :=
  { waitingReply := true, timerArmed := true, outcome := none,
    completedByReply := false, completedByTimeout := false }

/-- One transition of a pending `_getProxy` request: the timer removes the
listener and rejects with the proxy timeout message; a reply rejects on
truthy `data.e` and otherwise resolves with the proxy built from `data.r`
(represented here by the instance id `data.r`). -/
def proxyStep (T : Nat) (cid : String) (s : ProxyCallState) (e : WireEv) :
    ProxyCallState :=
  match e with
  | .timeout =>
    if s.timerArmed then
      { s with waitingReply := false, timerArmed := false,
               outcome := some (.err (.str (proxyTimeoutMsg T))),
               completedByTimeout := true }
    else s
  | .msg id d =>
    if id = cid ∧ s.waitingReply = true then
      let base := { s with waitingReply := false, timerArmed := false,
                           completedByReply := true }
      if truthy (getField d "e") then
        { base with outcome := some (.err (getField d "e")) }
      else
        { base with outcome := some (.ok (getField d "r")) }
    else s

def runProxyCall (T : Nat) (cid : String) (evs : List WireEv) : ProxyCallState :=
  evs.foldl (proxyStep T cid) initProxyCall

/-! ## Request construction and wildcard validation -/

/-- The parts of an outbound RPC request that the validation claims are
about: the dispatch topic and the request json fields built before
publishing. -/
structure RpcRequest where
  topic : String
  targetId : String
  method : String
  data : List (String × JsVal)

/-- `create` (VrpcRemote.js lines 110-133): wildcard checks on agent and
domain, then the `__create__`/`__createNamed__` json and the static topic
handed to `_getProxy`. -/
def createRequest (className : String) (inst : Option String) (args : List JsVal)
    (agent domain : String) : Except String RpcRequest :=
  if agent = "*" then .error "Agent must be specified"
  else if domain = "*" then .error "Domain must be specified"
  else
    let data := (match inst with
      | some i => [("_1", JsVal.str i)]
      | none => []) ++ packPositionalFrom (match inst with | some _ => 2 | none => 1) args
    let method := match inst with
      | some _ => "__createNamed__"
      | none => "__create__"
    .ok { topic := domain ++ "/" ++ agent ++ "/" ++ className ++ "/__static__/" ++ method,
          targetId := className, method := method, data := data }

/-- `getInstance` (VrpcRemote.js lines 144-159): no wildcard check at all;
the `__getNamed__` json is built and published unconditionally. -/
def getInstanceRequest (className inst agent domain : String) :
    Except String RpcRequest :=
  .ok { topic := domain ++ "/" ++ agent ++ "/" ++ className ++ "/__static__/__getNamed__",
        targetId := className, method := "__getNamed__",
        data := [("_1", JsVal.str inst)] }

/-- `callStatic` (VrpcRemote.js lines 196-215): a wildcard check on the
domain only, then the json with `_packData`-packed arguments and the
static topic. -/
def callStaticRequest (className functionName : String) (args : List JsVal)
    (c0 : Nat) (agent domain : String) : Except String RpcRequest :=
  if domain = "*" then .error "You must specify a domain"
  else
    match packData className functionName args c0 with
    | .error _ => .error "TypeError"
    | .ok (d, _, _) =>
      .ok { topic := domain ++ "/" ++ agent ++ "/" ++ className ++ "/__static__/" ++ functionName,
            targetId := className, method := functionName, data := d }

/-! ## Agent side: discovery publication and message dispatch -/

/-- Splits a char list at every occurrence of `sep`, keeping empty
segments, like the JS `String.prototype.split` with a one-char separator. -/
def splitCharsOn (sep : Char) : List Char → List (List Char)
  | [] => [[]]
  | c :: cs =>
    let r := splitCharsOn sep cs
    if c = sep then [] :: r
    else
      match r with
      | [] => [[c]]
      | x :: xs => (c :: x) :: xs

/-- `topic.split('/')` as used by both message handlers
(VrpcAgent.js line 134, VrpcRemote.js line 416). -/
def splitTopic (s : String) : List String :=
  (splitCharsOn '/' s.toList).map String.mk

/-- JS object assignment `o[k] = v` on an assoc list: update in place when
the key exists, append otherwise (JS insertion order). -/
def setField (fs : List (String × JsVal)) (k : String) (v : JsVal) :
    List (String × JsVal) :=
  match fs with
  | [] => [(k, v)]
  | (k', v') :: rest =>
    if k' = k then (k, v) :: rest else (k', v') :: setField rest k v

/-- `this._baseTopic` of VrpcAgent.js line 28. -/
def agentBaseTopic (domain agent : String) : String :=
  domain ++ "/" ++ agent

/-- The retained class-info topic of VrpcAgent.js line 98. -/
def agentClassInfoTopic (baseTopic klass : String) : String :=
  baseTopic ++ "/" ++ klass ++ "/__static__/__info__"

/-- The retained class-info payload built by `_handleConnect`
(VrpcAgent.js lines 90-95).  Note that the class name is published under
the key `class`, not `className`. -/
def agentClassInfoPayload (klass : String)
    (instances memberFunctions staticFunctions : List String) :
    List (String × JsVal) :=
  [("class", JsVal.str klass),
   ("instances", JsVal.arr (instances.map JsVal.str)),
   ("memberFunctions", JsVal.arr (memberFunctions.map JsVal.str)),
   ("staticFunctions", JsVal.arr (staticFunctions.map JsVal.str))]

/-- Observable result of one run of the Agent `_handleMessage` handler
(VrpcAgent.js lines 130-156).  `dispatched` is the json handed to
`VrpcAdapter.call` (if the handler got that far), `published` the reply
publication on the sender topic, `subscribed` the member-method topics
subscribed after a creation.  The handler itself never throws: every
throw inside is caught and recorded in `errorLogged`. -/
structure AgentResult where
  dispatched : Option (List (String × JsVal))
  published : Option (JsVal × List (String × JsVal))
  subscribed : List String
  warned : Bool
  errorLogged : Bool

def emptyAgentResult : AgentResult :=
  { dispatched := none, published := none, subscribed := [],
    warned := false, errorLogged := false }

/-- Reads `json.data.r` (the created instance id, VrpcAgent.js line 149). -/
def dataResultOf (json : List (String × JsVal)) : JsVal :=
  match getField json "data" with
  | .obj fs => getField fs "r"
  | _ => .undefined

/-- The Agent `_handleMessage` handler (VrpcAgent.js lines 130-156).
`payload` is the result of `JSON.parse` on the message (`none` when the
parse throws), `adapterCall` models `VrpcAdapter.call` which mutates the
json in place or throws, `getMemberFns` models
`VrpcAdapter.getMemberFunctionsArray`.  All throw sites fall under the
surrounding try/catch and only set `errorLogged`. -/
def handleAgentMessage
    (adapterCall : List (String × JsVal) → Except String (List (String × JsVal)))
    (getMemberFns : String → List String) (baseTopic : String)
    (topic : String) (payload : Option (List (String × JsVal))) : AgentResult :=
  match payload with
  | none => { emptyAgentResult with errorLogged := true }
  | some json0 =>
    let tokens := splitTopic topic
    if tokens.length ≠ 5 then { emptyAgentResult with warned := true }
    else
      let klass := tokens.getD 2 ""
      let inst := tokens.getD 3 ""
      let method := tokens.getD 4 ""
      let targetId := if inst = "__static__" then klass else inst
      let json1 := setField (setField json0 "targetId" (.str targetId)) "method" (.str method)
      match adapterCall json1 with
      | .error _ =>
        { emptyAgentResult with dispatched := some json1, errorLogged := true }
      | .ok json2 =>
        let subs :=
          if method = "__create__" ∨ method = "__createNamed__" then
            (getMemberFns klass).map (fun mfn =>
              baseTopic ++ "/" ++ klass ++ "/" ++ strOfVal (dataResultOf json2) ++ "/" ++ mfn)
          else []
        { emptyAgentResult with
          dispatched := some json1,
          published := some (getField json2 "sender", json2),
          subscribed := subs }

/-! ## Remote side: inbound message handling and the discovery tree -/

/-- One agent node of the discovery tree
(`this._domains[domain].agents[agent]`, VrpcRemote.js lines 456-463):
`status` and `hostname` start undefined and are set by agent-info
messages, `classes` maps a class name to the stored class-info json. -/
structure AgentEntry where
  status : JsVal
  hostname : JsVal
  classes : List (String × List (String × JsVal))

def emptyAgentEntry : AgentEntry :=
  { status := .undefined, hostname := .undefined, classes := [] }

/-- The discovery tree `this._domains` held by the Remote. -/
structure RemoteState where
  domains : List (String × List (String × AgentEntry))

def initRemoteState : RemoteState := { domains := [] }

/-- Generic assoc-list upsert preserving JS object insertion order. -/
def updAssoc {α : Type} : List (String × α) → String → (Option α → α) →
    List (String × α)
  | [], k, f => [(k, f none)]
  | (k', v) :: rest, k, f =>
    if k' = k then (k, f (some v)) :: rest else (k', v) :: updAssoc rest k f

/-- Events emitted by the Remote message handler: the public `agent` and
`class` events and the internal event-emitter emission that drives the
correlator and the tunnel table (VrpcRemote.js lines 425, 437-447, 451). -/
inductive REvent where
  | agentEv (domain agent : String) (status hostname : JsVal)
  | classEv (domain agent : String)
      (className instances memberFunctions staticFunctions : JsVal)
  | rpcEv (id : JsVal) (data : JsVal)

/-- Agent-info branch of the Remote message handler
(VrpcRemote.js lines 420-425): `_createIfNotExist`, then store `status`
and `hostname`, then emit the `agent` event. -/
def applyAgentInfo (s : RemoteState) (domain agent : String)
    (json : List (String × JsVal)) : RemoteState × REvent :=
  let st := getField json "status"
  let hn := getField json "hostname"
  ({ domains := updAssoc s.domains domain (fun ags =>
      updAssoc (ags.getD []) agent (fun e =>
        { (e.getD emptyAgentEntry) with status := st, hostname := hn })) },
   .agentEv domain agent st hn)

/-- Class-info branch of the Remote message handler
(VrpcRemote.js lines 426-448): `_createIfNotExist`, store the parsed json
under the class name, then emit the `class` event with the destructured
`className`, `instances`, `memberFunctions`, `staticFunctions` fields. -/
def applyClassInfo (s : RemoteState) (domain agent klass : String)
    (json : List (String × JsVal)) : RemoteState × REvent :=
  ({ domains := updAssoc s.domains domain (fun ags =>
      updAssoc (ags.getD []) agent (fun e =>
        let e := e.getD emptyAgentEntry
        { e with classes := updAssoc e.classes klass (fun _ => json) })) },
   .classEv domain agent (getField json "className") (getField json "instances")
     (getField json "memberFunctions") (getField json "staticFunctions"))

/-- The Remote inbound-message handler (VrpcRemote.js lines 414-453).
`parse` models `JSON.parse` on the payload text (`none` when it throws,
which the handler does not catch, hence the `Option` result).  An empty
payload returns immediately, leaving the state untouched and emitting
nothing. -/
def remoteOnMessage (parse : String → Option (List (String × JsVal)))
    (s : RemoteState) (topic message : String) :
    Option (RemoteState × List REvent) :=
  if message.length = 0 then some (s, [])
  else
    let tokens := splitTopic topic
    let domain := tokens.getD 0 ""
    let agent := tokens.getD 1 ""
    let klass := tokens.getD 2 ""
    let inst := tokens.getD 3 ""
    let func := tokens.getD 4 ""
    if func = "__info__" ∧ inst = "__static__" then
      if klass = "__agent__" then
        match parse message with
        | none => none
        | some json =>
          let (s', ev) := applyAgentInfo s domain agent json
          some (s', [ev])
      else
        match parse message with
        | none => none
        | some json =>
          let (s', ev) := applyClassInfo s domain agent klass json
          some (s', [ev])
    else
      match parse message with
      | none => none
      | some json => some (s, [.rpcEv (getField json "id") (getField json "data")])

/-! ## Helper lemmas -/

theorem mem_dedupGo {a : String} :
    ∀ (l seen : List String), a ∈ dedupGo seen l ↔ a ∈ l ∧ a ∉ seen := by
  intro l
  induction l with
  | nil => intro seen; simp [dedupGo]
  | cons x xs ih =>
    intro seen
    by_cases hx : x ∈ seen
    · simp only [dedupGo]
      rw [if_pos hx, ih]
      constructor
      · rintro ⟨h1, h2⟩
        exact ⟨List.mem_cons_of_mem _ h1, h2⟩
      · rintro ⟨h1, h2⟩
        rcases List.mem_cons.mp h1 with rfl | h
        · exact absurd hx h2
        · exact ⟨h, h2⟩
    · simp only [dedupGo]
      rw [if_neg hx]
      constructor
      · intro hmem
        rcases List.mem_cons.mp hmem with rfl | h
        · exact ⟨List.mem_cons_self _ _, hx⟩
        · have h2 := (ih (x :: seen)).mp h
          exact ⟨List.mem_cons_of_mem _ h2.1,
                 fun hs => h2.2 (List.mem_cons_of_mem _ hs)⟩
      · rintro ⟨h1, h2⟩
        rcases List.mem_cons.mp h1 with rfl | h
        · exact List.mem_cons_self _ _
        · by_cases hax : a = x
          · subst hax; exact List.mem_cons_self _ _
          · refine List.mem_cons_of_mem _ ((ih (x :: seen)).mpr ⟨h, ?_⟩)
            intro hmem
            rcases List.mem_cons.mp hmem with h' | h'
            · exact hax h'
            · exact h2 h'

theorem nodup_dedupGo : ∀ (l seen : List String), (dedupGo seen l).Nodup := by
  intro l
  induction l with
  | nil => intro seen; simp [dedupGo]
  | cons x xs ih =>
    intro seen
    by_cases hx : x ∈ seen
    · simpa [dedupGo, if_pos hx] using ih seen
    · simp only [dedupGo, if_neg hx, List.nodup_cons]
      refine ⟨?_, ih _⟩
      intro hmem
      exact ((mem_dedupGo _ _).mp hmem).2 (List.mem_cons_self _ _)

theorem mem_proxyMethodNames {a : String} {fns : List String} :
    a ∈ proxyMethodNames fns ↔ a ∈ fns.map createProxyStrip := by
  unfold proxyMethodNames dedupKeepFirst
  rw [mem_dedupGo]
  simp

theorem createProxyStrip_eq_stripSignature (m : String) :
    createProxyStrip m = stripSignature m := rfl

theorem strip_of_leading_dash {m : String} (h : m.toList.head? = some '-') :
    stripSignature m = m := by
  unfold stripSignature
  rcases hm : m.toList with _ | ⟨c, rest⟩
  · rw [hm] at h; simp at h
  · rw [hm] at h
    simp only [List.head?_cons, Option.some.injEq] at h
    subst h
    simp [List.findIdx?_cons]

theorem promiseTokenOf_prefixed : ∀ {v : JsVal} {t : String},
    promiseTokenOf v = some t → t.take 5 = "__p__" := by
  intro v t h
  cases v with
  | str s =>
    simp only [promiseTokenOf] at h
    split at h
    · next hc =>
      cases h
      exact hc
    · cases h
  | num n => exact Option.noConfusion h
  | bool b => exact Option.noConfusion h
  | null => exact Option.noConfusion h
  | undefined => exact Option.noConfusion h
  | func => exact Option.noConfusion h
  | arr es => exact Option.noConfusion h
  | obj fs => exact Option.noConfusion h

/-- Correlator invariant for a pending `_handleAgentAnswer` call: the
timer is armed exactly while the reply listener is registered, the ghost
completion flags match the listener state and never both fire, and any
stored promise token carries the `__p__` marker. -/
def CallInv (s : CallState) : Prop :=
  s.timerArmed = s.waitingReply ∧
  (s.waitingReply = true → s.completedByReply = false ∧ s.completedByTimeout = false) ∧
  (s.waitingReply = false → s.completedByReply = true ∨ s.completedByTimeout = true) ∧
  ¬(s.completedByReply = true ∧ s.completedByTimeout = true) ∧
  (∀ t, s.waitingPromise = some t → t.take 5 = "__p__")

theorem callInv_init : CallInv initCall := by
  refine ⟨rfl, fun _ => ⟨rfl, rfl⟩, ?_, ?_, ?_⟩
  · intro h
    exact Bool.noConfusion h
  · intro h
    exact Bool.noConfusion h.1
  · intro t h
    exact Option.noConfusion h

theorem callInv_step (T : Nat) (cid : String) {s : CallState} (e : WireEv)
    (h : CallInv s) : CallInv (callStep T cid s e) := by
  obtain ⟨h1, h2, h3, h4, h5⟩ := h
  cases e with
  | timeout =>
    simp only [callStep]
    by_cases ht : s.timerArmed = true
    · rw [if_pos ht]
      have hw : s.waitingReply = true := h1 ▸ ht
      refine ⟨rfl, by simp, fun _ => Or.inr rfl, ?_, fun t hh => h5 t hh⟩
      intro hc
      exact absurd hc.1 (by simp [(h2 hw).1])
    · rw [if_neg ht]
      exact ⟨h1, h2, h3, h4, h5⟩
  | msg id d =>
    simp only [callStep]
    by_cases hg : id = cid ∧ s.waitingReply = true
    · rw [if_pos hg]
      have hfl := h2 hg.2
      by_cases he : truthy (getField d "e") = true
      · rw [if_pos he]
        refine ⟨rfl, by simp, fun _ => Or.inl rfl, ?_, fun t hh => h5 t hh⟩
        intro hc
        exact absurd hc.2 (by simp [hfl.2])
      · rw [if_neg he]
        cases hp : promiseTokenOf (getField d "r") with
        | some t =>
          refine ⟨rfl, by simp, fun _ => Or.inl rfl, ?_, ?_⟩
          · intro hc
            exact absurd hc.2 (by simp [hfl.2])
          · intro t' hh
            cases hh
            exact promiseTokenOf_prefixed hp
        | none =>
          refine ⟨rfl, by simp, fun _ => Or.inl rfl, ?_, fun t hh => h5 t hh⟩
          intro hc
          exact absurd hc.2 (by simp [hfl.2])
    · rw [if_neg hg]
      by_cases hw : s.waitingPromise = some id
      · rw [if_pos hw]
        by_cases he : truthy (getField d "e") = true
        · rw [if_pos he]
          refine ⟨h1, h2, h3, h4, ?_⟩
          intro t hh
          cases hh
        · rw [if_neg he]
          refine ⟨h1, h2, h3, h4, ?_⟩
          intro t hh
          cases hh
      · rw [if_neg hw]
        exact ⟨h1, h2, h3, h4, h5⟩

theorem callStep_keeps_no_listener (T : Nat) (cid : String) {s : CallState}
    (e : WireEv) (h : s.waitingReply = false) :
    (callStep T cid s e).waitingReply = false := by
  cases e with
  | timeout =>
    simp only [callStep]
    split
    · rfl
    · exact h
  | msg id d =>
    simp only [callStep]
    rw [if_neg (by simp [h])]
    split
    · split
      · exact h
      · exact h
    · exact h

theorem runFrom_keeps_no_listener (T : Nat) (cid : String) :
    ∀ (evs : List WireEv) (s : CallState), s.waitingReply = false →
      (evs.foldl (callStep T cid) s).waitingReply = false := by
  intro evs
  induction evs with
  | nil => intro s h; exact h
  | cons e evs ih =>
    intro s h
    exact ih _ (callStep_keeps_no_listener T cid e h)

theorem callStep_relevant_removes (T : Nat) (cid : String) {s : CallState}
    (hInv : CallInv s) :
    (∀ d, (callStep T cid s (.msg cid d)).waitingReply = false) ∧
    (callStep T cid s .timeout).waitingReply = false := by
  constructor
  · intro d
    by_cases hw : s.waitingReply = true
    · simp only [callStep]
      rw [if_pos (And.intro trivial hw)]
      split
      · rfl
      · split <;> rfl
    · exact callStep_keeps_no_listener T cid _ (by simpa using hw)
  · by_cases hw : s.waitingReply = true
    · simp only [callStep]
      rw [if_pos (hInv.1.trans hw)]
    · exact callStep_keeps_no_listener T cid _ (by simpa using hw)

theorem callInv_run (T : Nat) (cid : String) :
    ∀ (evs : List WireEv) (s : CallState), CallInv s →
      CallInv (evs.foldl (callStep T cid) s) := by
  intro evs
  induction evs with
  | nil => intro s h; exact h
  | cons e evs ih =>
    intro s h
    exact ih _ (callInv_step T cid e h)

theorem run_relevant_completes (T : Nat) (cid : String) :
    ∀ (evs : List WireEv) (s : CallState), CallInv s →
      ((∃ d, WireEv.msg cid d ∈ evs) ∨ WireEv.timeout ∈ evs) →
      (evs.foldl (callStep T cid) s).waitingReply = false := by
  intro evs
  induction evs with
  | nil =>
    intro s _ h
    rcases h with ⟨d, hd⟩ | ht
    · cases hd
    · cases ht
  | cons e evs ih =>
    intro s hInv hrel
    by_cases hre : e = WireEv.timeout ∨ ∃ d, e = WireEv.msg cid d
    · have hstep : (callStep T cid s e).waitingReply = false := by
        rcases hre with rfl | ⟨d, rfl⟩
        · exact (callStep_relevant_removes T cid hInv).2
        · exact (callStep_relevant_removes T cid hInv).1 d
      exact runFrom_keeps_no_listener T cid evs _ hstep
    · push_neg at hre
      apply ih _ (callInv_step T cid e hInv)
      rcases hrel with ⟨d, hd⟩ | ht
      · rcases List.mem_cons.mp hd with heq | hmem
        · exact absurd heq.symm (hre.2 d)
        · exact Or.inl ⟨d, hmem⟩
      · rcases List.mem_cons.mp ht with heq | hmem
        · exact absurd heq.symm hre.1
        · exact Or.inr hmem

theorem callStep_late_reply_dropped (T : Nat) (cid : String) {s : CallState}
    (hInv : CallInv s) (hcid : cid.take 5 ≠ "__p__")
    (hw : s.waitingReply = false) (d : List (String × JsVal)) :
    callStep T cid s (.msg cid d) = s := by
  simp only [callStep]
  rw [if_neg (by simp [hw])]
  rw [if_neg ?hnp]
  case hnp =>
    intro hcontra
    exact hcid (hInv.2.2.2.2 cid hcontra)

/-- Correlator invariant for a pending `_getProxy` request. -/
def ProxyInv (s : ProxyCallState) : Prop :=
  s.timerArmed = s.waitingReply ∧
  (s.waitingReply = true → s.completedByReply = false ∧ s.completedByTimeout = false) ∧
  (s.waitingReply = false → s.completedByReply = true ∨ s.completedByTimeout = true) ∧
  ¬(s.completedByReply = true ∧ s.completedByTimeout = true)

theorem proxyInv_init : ProxyInv initProxyCall := by
  refine ⟨rfl, fun _ => ⟨rfl, rfl⟩, ?_, ?_⟩
  · intro h
    exact Bool.noConfusion h
  · intro h
    exact Bool.noConfusion h.1

theorem proxyInv_step (T : Nat) (cid : String) {s : ProxyCallState} (e : WireEv)
    (h : ProxyInv s) : ProxyInv (proxyStep T cid s e) := by
  obtain ⟨h1, h2, h3, h4⟩ := h
  cases e with
  | timeout =>
    simp only [proxyStep]
    by_cases ht : s.timerArmed = true
    · rw [if_pos ht]
      have hw : s.waitingReply = true := h1 ▸ ht
      refine ⟨rfl, by simp, fun _ => Or.inr rfl, ?_⟩
      intro hc
      exact absurd hc.1 (by simp [(h2 hw).1])
    · rw [if_neg ht]
      exact ⟨h1, h2, h3, h4⟩
  | msg id d =>
    simp only [proxyStep]
    by_cases hg : id = cid ∧ s.waitingReply = true
    · rw [if_pos hg]
      have hfl := h2 hg.2
      by_cases he : truthy (getField d "e") = true
      · rw [if_pos he]
        refine ⟨rfl, by simp, fun _ => Or.inl rfl, ?_⟩
        intro hc
        exact absurd hc.2 (by simp [hfl.2])
      · rw [if_neg he]
        refine ⟨rfl, by simp, fun _ => Or.inl rfl, ?_⟩
        intro hc
        exact absurd hc.2 (by simp [hfl.2])
    · rw [if_neg hg]
      exact ⟨h1, h2, h3, h4⟩

theorem proxyStep_keeps_no_listener (T : Nat) (cid : String) {s : ProxyCallState}
    (e : WireEv) (h : s.waitingReply = false) :
    (proxyStep T cid s e).waitingReply = false := by
  cases e with
  | timeout =>
    simp only [proxyStep]
    split
    · rfl
    · exact h
  | msg id d =>
    simp only [proxyStep]
    rw [if_neg (by simp [h])]
    exact h

theorem proxyRunFrom_keeps_no_listener (T : Nat) (cid : String) :
    ∀ (evs : List WireEv) (s : ProxyCallState), s.waitingReply = false →
      (evs.foldl (proxyStep T cid) s).waitingReply = false := by
  intro evs
  induction evs with
  | nil => intro s h; exact h
  | cons e evs ih =>
    intro s h
    exact ih _ (proxyStep_keeps_no_listener T cid e h)

theorem proxyStep_relevant_removes (T : Nat) (cid : String) {s : ProxyCallState}
    (hInv : ProxyInv s) :
    (∀ d, (proxyStep T cid s (.msg cid d)).waitingReply = false) ∧
    (proxyStep T cid s .timeout).waitingReply = false := by
  constructor
  · intro d
    by_cases hw : s.waitingReply = true
    · simp only [proxyStep]
      rw [if_pos (And.intro trivial hw)]
      split <;> rfl
    · exact proxyStep_keeps_no_listener T cid _ (by simpa using hw)
  · by_cases hw : s.waitingReply = true
    · simp only [proxyStep]
      rw [if_pos (hInv.1.trans hw)]
    · exact proxyStep_keeps_no_listener T cid _ (by simpa using hw)

theorem proxyInv_run (T : Nat) (cid : String) :
    ∀ (evs : List WireEv) (s : ProxyCallState), ProxyInv s →
      ProxyInv (evs.foldl (proxyStep T cid) s) := by
  intro evs
  induction evs with
  | nil => intro s h; exact h
  | cons e evs ih =>
    intro s h
    exact ih _ (proxyInv_step T cid e h)

theorem proxyRun_relevant_completes (T : Nat) (cid : String) :
    ∀ (evs : List WireEv) (s : ProxyCallState), ProxyInv s →
      ((∃ d, WireEv.msg cid d ∈ evs) ∨ WireEv.timeout ∈ evs) →
      (evs.foldl (proxyStep T cid) s).waitingReply = false := by
  intro evs
  induction evs with
  | nil =>
    intro s _ h
    rcases h with ⟨d, hd⟩ | ht
    · cases hd
    · cases ht
  | cons e evs ih =>
    intro s hInv hrel
    by_cases hre : e = WireEv.timeout ∨ ∃ d, e = WireEv.msg cid d
    · have hstep : (proxyStep T cid s e).waitingReply = false := by
        rcases hre with rfl | ⟨d, rfl⟩
        · exact (proxyStep_relevant_removes T cid hInv).2
        · exact (proxyStep_relevant_removes T cid hInv).1 d
      exact proxyRunFrom_keeps_no_listener T cid evs _ hstep
    · push_neg at hre
      apply ih _ (proxyInv_step T cid e hInv)
      rcases hrel with ⟨d, hd⟩ | ht
      · rcases List.mem_cons.mp hd with heq | hmem
        · exact absurd heq.symm (hre.2 d)
        · exact Or.inl ⟨d, hmem⟩
      · rcases List.mem_cons.mp ht with heq | hmem
        · exact absurd heq.symm hre.1
        · exact Or.inr hmem

/-- Per-argument characterization of a successful `_packData` run: the
wire entry and tunnel registration produced for the argument `v` at
relative position `i` of the remaining list `rest`, whose head sits at
absolute position `idx`, with current counter `cnt`. -/
def PackSpec (proxyId m : String) (arg0 : Option JsVal)
    (d : List (String × JsVal)) (t : List (String × TunnelKind))
    (idx cnt : Nat) (rest : List JsVal) (i : Nat) (v : JsVal) : Prop :=
  ((isFunction v = true ∧ (m == "on" && (idx + i) == 1 && isStringOpt arg0) = true) →
    d.get? i = some (wireKey (idx + i),
      .str (tunnelId proxyId m (idx + i) (strOfOpt arg0))) ∧
    (tunnelId proxyId m (idx + i) (strOfOpt arg0), TunnelKind.persistentOn) ∈ t) ∧
  ((isFunction v = true ∧ (m == "on" && (idx + i) == 1 && isStringOpt arg0) = false) →
    d.get? i = some (wireKey (idx + i), .str (tunnelId proxyId m (idx + i)
      (toString ((cnt + consumedFrom m arg0 idx rest i) % maxSafeInteger)))) ∧
    (tunnelId proxyId m (idx + i)
        (toString ((cnt + consumedFrom m arg0 idx rest i) % maxSafeInteger)),
      TunnelKind.oneShot) ∈ t) ∧
  ((isFunction v = false ∧ isEmitterE v = .ok true) →
    d.get? i = some (wireKey (idx + i),
      .str (tunnelId proxyId m (idx + i) (strOfVal (eventOf v)))) ∧
    (tunnelId proxyId m (idx + i) (strOfVal (eventOf v)),
      TunnelKind.persistentEmitter (eventOf v)) ∈ t) ∧
  ((isFunction v = false ∧ isEmitterE v = .ok false) →
    d.get? i = some (wireKey (idx + i), v))

theorem packGo_spec (proxyId m : String) (arg0 : Option JsVal) :
    ∀ (rest : List JsVal) (idx cnt : Nat)
      (out : List (String × JsVal) × List (String × TunnelKind) × Nat),
      packGo proxyId m arg0 idx cnt rest = .ok out →
      ∀ (i : Nat) (v : JsVal), rest.get? i = some v →
      PackSpec proxyId m arg0 out.1 out.2.1 idx cnt rest i v := by
  intro rest
  induction rest with
  | nil =>
    intro idx cnt out hok i v hv
    cases hv
  | cons v0 vs ih =>
    intro idx cnt out hok i v hv
    simp only [packGo] at hok
    by_cases hf : isFunction v0 = true
    · rw [if_pos hf] at hok
      by_cases hg : (m == "on" && idx == 1 && isStringOpt arg0) = true
      · rw [if_pos hg] at hok
        cases hrec : packGo proxyId m arg0 (idx + 1) cnt vs with
        | error e =>
          rw [hrec] at hok
          cases hok
        | ok r =>
          obtain ⟨d', t', c'⟩ := r
          rw [hrec] at hok
          injection hok with hok
          subst hok
          cases i with
          | zero =>
            cases hv
            refine ⟨?_, ?_, ?_, ?_⟩
            · intro _
              simp
            · rintro ⟨_, hgf⟩
              rw [Nat.add_zero] at hgf
              rw [hg] at hgf
              cases hgf
            · rintro ⟨hff, _⟩
              rw [hf] at hff
              cases hff
            · rintro ⟨hff, _⟩
              rw [hf] at hff
              cases hff
          | succ j =>
            have hspec := ih (idx + 1) cnt ⟨d', t', c'⟩ hrec j v hv
            have hidx : idx + 1 + j = idx + (j + 1) := by omega
            have hcons : consumedFrom m arg0 idx (v0 :: vs) (j + 1)
                = consumedFrom m arg0 (idx + 1) vs j := by
              have hcc : consumesCounter m arg0 idx v0 = false := by
                simp [consumesCounter, hf, hg]
              simp [consumedFrom, hcc]
            obtain ⟨ha, hb, hc, hd⟩ := hspec
            rw [hidx] at ha hb hc hd
            refine ⟨?_, ?_, ?_, ?_⟩
            · intro hpre
              obtain ⟨h1, h2⟩ := ha hpre
              exact ⟨h1, List.mem_cons_of_mem _ h2⟩
            · intro hpre
              rw [hcons]
              obtain ⟨h1, h2⟩ := hb hpre
              exact ⟨h1, List.mem_cons_of_mem _ h2⟩
            · intro hpre
              obtain ⟨h1, h2⟩ := hc hpre
              exact ⟨h1, List.mem_cons_of_mem _ h2⟩
            · intro hpre
              exact hd hpre
      · rw [if_neg hg] at hok
        cases hrec : packGo proxyId m arg0 (idx + 1) (cnt + 1) vs with
        | error e =>
          rw [hrec] at hok
          cases hok
        | ok r =>
          obtain ⟨d', t', c'⟩ := r
          rw [hrec] at hok
          injection hok with hok
          subst hok
          cases i with
          | zero =>
            cases hv
            refine ⟨?_, ?_, ?_, ?_⟩
            · rintro ⟨_, hgt⟩
              rw [Nat.add_zero] at hgt
              rw [eq_false_of_ne_true hg] at hgt
              cases hgt
            · intro _
              have hzero : consumedFrom m arg0 idx (v0 :: vs) 0 = 0 := rfl
              rw [Nat.add_zero, hzero, Nat.add_zero]
              simp
            · rintro ⟨hff, _⟩
              rw [hf] at hff
              cases hff
            · rintro ⟨hff, _⟩
              rw [hf] at hff
              cases hff
          | succ j =>
            have hspec := ih (idx + 1) (cnt + 1) ⟨d', t', c'⟩ hrec j v hv
            have hidx : idx + 1 + j = idx + (j + 1) := by omega
            have hcnt : cnt + 1 + consumedFrom m arg0 (idx + 1) vs j
                = cnt + consumedFrom m arg0 idx (v0 :: vs) (j + 1) := by
              have hcc : consumesCounter m arg0 idx v0 = true := by
                simp [consumesCounter, hf, hg]
              simp [consumedFrom, hcc]
              omega
            obtain ⟨ha, hb, hc, hd⟩ := hspec
            rw [hidx] at ha hb hc hd
            rw [hcnt] at hb
            refine ⟨?_, ?_, ?_, ?_⟩
            · intro hpre
              obtain ⟨h1, h2⟩ := ha hpre
              exact ⟨h1, List.mem_cons_of_mem _ h2⟩
            · intro hpre
              obtain ⟨h1, h2⟩ := hb hpre
              exact ⟨h1, List.mem_cons_of_mem _ h2⟩
            · intro hpre
              obtain ⟨h1, h2⟩ := hc hpre
              exact ⟨h1, List.mem_cons_of_mem _ h2⟩
            · intro hpre
              exact hd hpre
    · rw [if_neg hf] at hok
      cases hem : isEmitterE v0 with
      | error e =>
        rw [hem] at hok
        cases hok
      | ok b =>
        rw [hem] at hok
        cases b with
        | true =>
          cases hrec : packGo proxyId m arg0 (idx + 1) cnt vs with
          | error e =>
            rw [hrec] at hok
            cases hok
          | ok r =>
            obtain ⟨d', t', c'⟩ := r
            rw [hrec] at hok
            injection hok with hok
            subst hok
            cases i with
            | zero =>
              cases hv
              refine ⟨?_, ?_, ?_, ?_⟩
              · rintro ⟨hff, _⟩
                rw [eq_false_of_ne_true hf] at hff
                cases hff
              · rintro ⟨hff, _⟩
                rw [eq_false_of_ne_true hf] at hff
                cases hff
              · intro _
                simp
              · rintro ⟨_, hok2⟩
                rw [hem] at hok2
                injection hok2 with hok2
                cases hok2
            | succ j =>
              have hspec := ih (idx + 1) cnt ⟨d', t', c'⟩ hrec j v hv
              have hidx : idx + 1 + j = idx + (j + 1) := by omega
              have hcons : consumedFrom m arg0 idx (v0 :: vs) (j + 1)
                  = consumedFrom m arg0 (idx + 1) vs j := by
                have hcc : consumesCounter m arg0 idx v0 = false := by
                  simp [consumesCounter, eq_false_of_ne_true hf]
                simp [consumedFrom, hcc]
              obtain ⟨ha, hb, hc, hd⟩ := hspec
              rw [hidx] at ha hb hc hd
              refine ⟨?_, ?_, ?_, ?_⟩
              · intro hpre
                obtain ⟨h1, h2⟩ := ha hpre
                exact ⟨h1, List.mem_cons_of_mem _ h2⟩
              · intro hpre
                rw [hcons]
                obtain ⟨h1, h2⟩ := hb hpre
                exact ⟨h1, List.mem_cons_of_mem _ h2⟩
              · intro hpre
                obtain ⟨h1, h2⟩ := hc hpre
                exact ⟨h1, List.mem_cons_of_mem _ h2⟩
              · intro hpre
                exact hd hpre
        | false =>
          cases hrec : packGo proxyId m arg0 (idx + 1) cnt vs with
          | error e =>
            rw [hrec] at hok
            cases hok
          | ok r =>
            obtain ⟨d', t', c'⟩ := r
            rw [hrec] at hok
            injection hok with hok
            subst hok
            cases i with
            | zero =>
              cases hv
              refine ⟨?_, ?_, ?_, ?_⟩
              · rintro ⟨hff, _⟩
                rw [eq_false_of_ne_true hf] at hff
                cases hff
              · rintro ⟨hff, _⟩
                rw [eq_false_of_ne_true hf] at hff
                cases hff
              · rintro ⟨_, hok2⟩
                rw [hem] at hok2
                injection hok2 with hok2
                cases hok2
              · intro _
                simp
            | succ j =>
              have hspec := ih (idx + 1) cnt ⟨d', t', c'⟩ hrec j v hv
              have hidx : idx + 1 + j = idx + (j + 1) := by omega
              have hcons : consumedFrom m arg0 idx (v0 :: vs) (j + 1)
                  = consumedFrom m arg0 (idx + 1) vs j := by
                have hcc : consumesCounter m arg0 idx v0 = false := by
                  simp [consumesCounter, eq_false_of_ne_true hf]
                simp [consumedFrom, hcc]
              obtain ⟨ha, hb, hc, hd⟩ := hspec
              rw [hidx] at ha hb hc hd
              refine ⟨?_, ?_, ?_, ?_⟩
              · intro hpre
                obtain ⟨h1, h2⟩ := ha hpre
                exact ⟨h1, h2⟩
              · intro hpre
                rw [hcons]
                obtain ⟨h1, h2⟩ := hb hpre
                exact ⟨h1, h2⟩
              · intro hpre
                obtain ⟨h1, h2⟩ := hc hpre
                exact ⟨h1, h2⟩
              · intro hpre
                exact hd hpre

/-! ## Claim theorems -/

/-- Claim C9: signature stripping truncates only at a dash in a position
strictly greater than zero; a name whose first character is a dash is
returned unchanged (and is never the empty string) by `_stripSignature`,
by the inline stripping of `_createProxy`, and hence survives unchanged
into the discovery query results and the proxy method set. -/
theorem C9_strip_leading_dash (m : String) (h : m.toList.head? = some '-') :
    stripSignature m = m ∧ createProxyStrip m = m ∧ m ≠ "" ∧
    (∀ fns : List String, m ∈ fns → m ∈ availableMemberFunctionNames fns) ∧
    (∀ fns : List String, m ∈ fns → m ∈ availableStaticFunctionNames fns) ∧
    (∀ fns : List String, m ∈ fns → m ∈ proxyMethodNames fns) := by
  have hs : stripSignature m = m := strip_of_leading_dash h
  have hne : m ≠ "" := by
    intro hnil
    rw [hnil] at h
    simp at h
  refine ⟨hs, hs, hne, ?_, ?_, ?_⟩
  · intro fns hm
    exact List.mem_map.mpr ⟨m, hm, hs⟩
  · intro fns hm
    exact List.mem_map.mpr ⟨m, hm, hs⟩
  · intro fns hm
    exact mem_proxyMethodNames.mpr (List.mem_map.mpr ⟨m, hm, hs⟩)

/-- Witness for C9 at the concrete name "-foo". -/
theorem C9_strip_leading_dash_witness :
    stripSignature "-foo" = "-foo" ∧ "-foo" ∈ proxyMethodNames ["-foo", "bar-sig"] := by
  have h := C9_strip_leading_dash "-foo" (by decide)
  exact ⟨h.1, h.2.2.2.2.2 ["-foo", "bar-sig"] (by simp)⟩

/-- Claim C7: the callable method set of a proxy is exactly the
deduplicated set of signature-stripped member-function names captured at
creation time: it has no duplicates, and a name is a proxy method iff it
is the stripped form of some captured member function. -/
theorem C7_proxy_method_set (fns : List String) :
    (proxyMethodNames fns).Nodup ∧
    (∀ name, name ∈ proxyMethodNames fns ↔ ∃ f ∈ fns, createProxyStrip f = name) := by
  constructor
  · exact nodup_dedupGo _ _
  · intro name
    rw [mem_proxyMethodNames, List.mem_map]

/-- Witness for C7 at a concrete overloaded function list. -/
theorem C7_proxy_method_set_witness :
    (proxyMethodNames ["inc-void", "inc-num", "dec"]).Nodup ∧
    proxyMethodNames ["inc-void", "inc-num", "dec"] = ["inc", "dec"] := by
  exact ⟨(C7_proxy_method_set ["inc-void", "inc-num", "dec"]).1, by decide⟩

/-- Claim C10: an inbound broker message with an empty payload makes the
Remote handler return immediately: the discovery tree is unchanged and no
event is emitted, so the correlator and the tunnel table (both driven
only by emitted events) are untouched as well. -/
theorem C10_empty_payload_noop (parse : String → Option (List (String × JsVal)))
    (s : RemoteState) (topic message : String) (h : message.length = 0) :
    remoteOnMessage parse s topic message = some (s, []) := by
  unfold remoteOnMessage
  rw [if_pos h]

/-- Witness for C10 at a concrete empty message. -/
theorem C10_empty_payload_noop_witness :
    remoteOnMessage (fun _ => none) initRemoteState "d/a1/Foo/__static__/__info__" ""
      = some (initRemoteState, []) :=
  C10_empty_payload_noop (fun _ => none) initRemoteState "d/a1/Foo/__static__/__info__" "" rfl

/-- Claim C3 is violated by the code: the Agent publishes the class-info
payload with key `class` (VrpcAgent.js line 91), not `className`, so the
payload lacks the `className` key and the `class` event the Remote emits
for it carries an undefined `className` field.  This theorem evaluates
both sides at a concrete class. -/
theorem C3_classInfo_key_mismatch :
    (agentClassInfoPayload "Foo" ["i1"] ["inc-void"] []).lookup "className" = none ∧
    (agentClassInfoPayload "Foo" ["i1"] ["inc-void"] []).lookup "class"
      = some (JsVal.str "Foo") ∧
    (applyClassInfo initRemoteState "d" "a1" "Foo"
        (agentClassInfoPayload "Foo" ["i1"] ["inc-void"] [])).2
      = REvent.classEv "d" "a1" JsVal.undefined (JsVal.arr [JsVal.str "i1"])
          (JsVal.arr [JsVal.str "inc-void"]) (JsVal.arr []) ∧
    agentClassInfoTopic (agentBaseTopic "d" "a1") "Foo" = "d/a1/Foo/__static__/__info__" :=
  ⟨rfl, rfl, rfl, rfl⟩

/-- Claim C4 as stated is false: `getInstance` performs no wildcard check
at all and `callStatic` does not check the agent; both build and publish
their requests with a literal `*` in the topic. -/
theorem C4_wildcard_check_missing :
    getInstanceRequest "Foo" "x" "*" "*"
      = .ok { topic := "*/*/Foo/__static__/__getNamed__", targetId := "Foo",
              method := "__getNamed__", data := [("_1", JsVal.str "x")] } ∧
    callStaticRequest "Foo" "f" [] 0 "*" "d"
      = .ok { topic := "d/*/Foo/__static__/f", targetId := "Foo",
              method := "f", data := [] } :=
  ⟨rfl, rfl⟩

/-- Claim C4, amended to what the code does: `create` raises synchronously
for a wildcard agent or domain before publishing, `callStatic` raises for
a wildcard domain only, and `getInstance` never raises. -/
theorem C4_wildcard_checks (className functionName : String) (inst : Option String)
    (args : List JsVal) (c0 : Nat) (agent domain ginst : String)
    (hagent : agent ≠ "*") (hdomain : domain ≠ "*") :
    createRequest className inst args "*" domain = .error "Agent must be specified" ∧
    createRequest className inst args agent "*" = .error "Domain must be specified" ∧
    callStaticRequest className functionName args c0 agent "*"
      = .error "You must specify a domain" ∧
    (createRequest className inst args agent domain).isOk = true ∧
    (getInstanceRequest className ginst agent domain).isOk = true ∧
    (getInstanceRequest className ginst "*" "*").isOk = true := by
  refine ⟨?_, ?_, ?_, ?_, rfl, rfl⟩
  · unfold createRequest
    rw [if_pos rfl]
  · unfold createRequest
    rw [if_neg hagent, if_pos rfl]
  · unfold callStaticRequest
    rw [if_pos rfl]
  · unfold createRequest
    rw [if_neg hagent, if_neg hdomain]
    rfl

/-- Claim C8: the Agent message handler drops, without dispatching to the
Adapter and without publishing a reply, every message whose topic does
not have exactly five slash-delimited segments and every message whose
payload fails to parse; such protocol violations only produce a log
entry.  The handler is modelled as a total function (`AgentResult`): the
surrounding try/catch means no input makes it propagate an exception. -/
theorem C8_agent_drops_protocol_violations
    (adapterCall : List (String × JsVal) → Except String (List (String × JsVal)))
    (getMemberFns : String → List String) (baseTopic topic : String)
    (payload : Option (List (String × JsVal)))
    (h : (splitTopic topic).length ≠ 5 ∨ payload = none) :
    (handleAgentMessage adapterCall getMemberFns baseTopic topic payload).dispatched = none ∧
    (handleAgentMessage adapterCall getMemberFns baseTopic topic payload).published = none ∧
    (handleAgentMessage adapterCall getMemberFns baseTopic topic payload).subscribed = [] ∧
    ((handleAgentMessage adapterCall getMemberFns baseTopic topic payload).warned = true ∨
      (handleAgentMessage adapterCall getMemberFns baseTopic topic payload).errorLogged = true) := by
  rcases payload with _ | json0
  · simp [handleAgentMessage, emptyAgentResult]
  · replace h : (splitTopic topic).length ≠ 5 := by
      rcases h with h | h
      · exact h
      · simp at h
    simp only [handleAgentMessage]
    rw [if_pos h]
    simp [emptyAgentResult]

/-- Witness for C8 at a concrete two-segment topic. -/
theorem C8_agent_drops_protocol_violations_witness :
    (splitTopic "a/b").length ≠ 5 ∧
    (handleAgentMessage (fun j => .ok j) (fun _ => []) "d/a1" "a/b" (some [])).dispatched
      = none ∧
    (handleAgentMessage (fun j => .ok j) (fun _ => []) "d/a1" "a/b" (some [])).published
      = none := by
  have h := C8_agent_drops_protocol_violations (fun j => .ok j) (fun _ => [])
    "d/a1" "a/b" (some []) (Or.inl (by decide))
  exact ⟨by decide, h.1, h.2.1⟩

/-- Claim C6: decoding tunneled callback data (sort the underscore keys
lexicographically, read the values in that order) is inverse to the
positional packing `_1.._N` for argument lists of up to nine elements. -/
theorem C6_callback_arg_roundtrip (args : List JsVal) (h : args.length ≤ 9) :
    decodeArgs (packPositional args) = args :=
  match args, h with
  | [], _ => rfl
  | [_], _ => rfl
  | [_, _], _ => rfl
  | [_, _, _], _ => rfl
  | [_, _, _, _], _ => rfl
  | [_, _, _, _, _], _ => rfl
  | [_, _, _, _, _, _], _ => rfl
  | [_, _, _, _, _, _, _], _ => rfl
  | [_, _, _, _, _, _, _, _], _ => rfl
  | [_, _, _, _, _, _, _, _, _], _ => rfl
  | _ :: _ :: _ :: _ :: _ :: _ :: _ :: _ :: _ :: _ :: rest, h => by
    simp only [List.length_cons] at h
    omega

/-- Witness for C6 at a concrete two-argument list. -/
theorem C6_callback_arg_roundtrip_witness :
    ([JsVal.num 42, JsVal.str "x"] : List JsVal).length ≤ 9 ∧
    decodeArgs (packPositional [JsVal.num 42, JsVal.str "x"])
      = [JsVal.num 42, JsVal.str "x"] :=
  ⟨by decide, C6_callback_arg_roundtrip [JsVal.num 42, JsVal.str "x"] (by decide)⟩

/-- Claim C5 as stated is false at the plain value `null`: `null` is not
callable and not an emitter pair, yet it is not sent unchanged — the
`_isEmitter` check evaluates `null.hasOwnProperty` (since in JS
`typeof null` is "object") and throws, so `_packData` produces no data at
all for an argument list containing `null`. -/
theorem C5_null_argument_throws :
    isFunction JsVal.null = false ∧
    packData "ab" "m" [JsVal.null] 0 = .error () ∧
    ∀ out, packData "ab" "m" [JsVal.null] 0 ≠ .ok out := by
  refine ⟨rfl, rfl, ?_⟩
  intro out h
  rw [show packData "ab" "m" [JsVal.null] 0 = .error () from rfl] at h
  cases h

/-- Claim C5 (amended): on a successful `_packData` run, every argument
is represented per the tunneling table of the claim: the special
`on`-registration produces the counter-free id
`__f__{proxyId}-on-1-{args[0]}` with a persistent entry (so repeated
identical registrations reuse the same id), any other callable produces
`__f__{proxyId}-{method}-{argIndex}-{counter}` with a one-shot entry
where `{counter}` is the shared invoke counter advanced once per such
callable, an emitter pair with a callable `emit` produces
`__f__{proxyId}-{method}-{argIndex}-{event}` with a persistent entry
dispatching to `emitter.emit(event, ...)`, and every other value on
which the emitter check completes is sent unchanged under `_{argIndex+1}`
(the amendment: values that make the emitter check throw — `null`
itself, or a pair whose `emitter` is `null` — abort the packing instead,
see the counterexample).  The final conjuncts state the delivery
behaviour of the three entry kinds: one-shot entries are removed by their
first delivery, persistent entries survive, and emitter entries re-emit. -/
theorem C5_packData_tunneling (proxyId m : String) (args : List JsVal) (c0 : Nat)
    (out : List (String × JsVal) × List (String × TunnelKind) × Nat)
    (hok : packData proxyId m args c0 = .ok out)
    (i : Nat) (v : JsVal) (hv : args.get? i = some v) :
    ((isFunction v = true ∧ (m == "on" && i == 1 && isStringOpt (args.get? 0)) = true) →
      out.1.get? i = some (wireKey i,
        .str (tunnelId proxyId m i (strOfOpt (args.get? 0)))) ∧
      (tunnelId proxyId m i (strOfOpt (args.get? 0)),
        TunnelKind.persistentOn) ∈ out.2.1) ∧
    ((isFunction v = true ∧ (m == "on" && i == 1 && isStringOpt (args.get? 0)) = false) →
      out.1.get? i = some (wireKey i, .str (tunnelId proxyId m i
        (toString ((c0 + consumedBefore m (args.get? 0) args i) % maxSafeInteger)))) ∧
      (tunnelId proxyId m i
          (toString ((c0 + consumedBefore m (args.get? 0) args i) % maxSafeInteger)),
        TunnelKind.oneShot) ∈ out.2.1) ∧
    ((isFunction v = false ∧ isEmitterE v = .ok true) →
      out.1.get? i = some (wireKey i,
        .str (tunnelId proxyId m i (strOfVal (eventOf v)))) ∧
      (tunnelId proxyId m i (strOfVal (eventOf v)),
        TunnelKind.persistentEmitter (eventOf v)) ∈ out.2.1) ∧
    ((isFunction v = false ∧ isEmitterE v = .ok false) →
      out.1.get? i = some (wireKey i, v)) ∧
    (∀ id dd, deliverTunnel [(id, TunnelKind.oneShot)] id dd
        = ([.callback (decodeArgs dd)], [])) ∧
    (∀ id dd, deliverTunnel [(id, TunnelKind.persistentOn)] id dd
        = ([.callback (decodeArgs dd)], [(id, TunnelKind.persistentOn)])) ∧
    (∀ id dd ev, deliverTunnel [(id, TunnelKind.persistentEmitter ev)] id dd
        = ([.emit ev (decodeArgs dd)], [(id, TunnelKind.persistentEmitter ev)])) := by
  have hspec := packGo_spec proxyId m (args.get? 0) args 0 c0 out hok i v hv
  obtain ⟨ha, hb, hc, hd⟩ := hspec
  rw [Nat.zero_add] at ha hb hc hd
  refine ⟨ha, hb, hc, hd, ?_, ?_, ?_⟩
  · intro id dd
    simp [deliverTunnel, deliverData, isOneShot]
  · intro id dd
    simp [deliverTunnel, deliverData, isOneShot]
  · intro id dd ev
    simp [deliverTunnel, deliverData, isOneShot]

/-- Witness for the amended C5: a five-argument call with a string, two
plain callbacks, an emitter pair and a number, packed with counter 5. -/
theorem C5_packData_tunneling_witness :
    packData "ab" "m" [JsVal.str "x", JsVal.func, JsVal.func,
        JsVal.obj [("emitter", JsVal.obj [("emit", JsVal.func)]), ("event", JsVal.str "ev")],
        JsVal.num 7] 5
      = .ok ([("_1", JsVal.str "x"), ("_2", JsVal.str "__f__ab-m-1-5"),
              ("_3", JsVal.str "__f__ab-m-2-6"), ("_4", JsVal.str "__f__ab-m-3-ev"),
              ("_5", JsVal.num 7)],
             [("__f__ab-m-1-5", TunnelKind.oneShot),
              ("__f__ab-m-2-6", TunnelKind.oneShot),
              ("__f__ab-m-3-ev", TunnelKind.persistentEmitter (JsVal.str "ev"))], 7) ∧
    [("_1", JsVal.str "x"), ("_2", JsVal.str "__f__ab-m-1-5"),
     ("_3", JsVal.str "__f__ab-m-2-6"), ("_4", JsVal.str "__f__ab-m-3-ev"),
     ("_5", JsVal.num 7)].get? 2 = some ("_3", JsVal.str "__f__ab-m-2-6") := by
  have h := C5_packData_tunneling "ab" "m"
    [JsVal.str "x", JsVal.func, JsVal.func,
     JsVal.obj [("emitter", JsVal.obj [("emit", JsVal.func)]), ("event", JsVal.str "ev")],
     JsVal.num 7] 5
    ([("_1", JsVal.str "x"), ("_2", JsVal.str "__f__ab-m-1-5"),
      ("_3", JsVal.str "__f__ab-m-2-6"), ("_4", JsVal.str "__f__ab-m-3-ev"),
      ("_5", JsVal.num 7)],
     [("__f__ab-m-1-5", TunnelKind.oneShot),
      ("__f__ab-m-2-6", TunnelKind.oneShot),
      ("__f__ab-m-3-ev", TunnelKind.persistentEmitter (JsVal.str "ev"))], 7)
    rfl 2 JsVal.func rfl
  exact ⟨rfl, (h.2.1 ⟨rfl, rfl⟩).1⟩

/-- Claim C2: for both kinds of pending request (the `_handleAgentAnswer`
correlator entry used by proxy method calls, callStatic and delete, and
the `_getProxy` entry used by proxy creation), the timer is registered
together with the one-shot listener; over any event trace, a completion
flag implies the listener for the correlation id is gone, at most one of
reply-completion and timeout-rejection fires, at least one fires once the
trace contains a reply or the timer event, and a reply arriving once the
listener is gone leaves the state entirely unchanged (silently dropped).
The hypothesis that the correlation id does not start with `__p__` holds
for every real id (`{4-hex-instance}-{counter}`). -/
theorem C2_correlator_exactly_once (T : Nat) (cid : String) (evs : List WireEv)
    (h : cid.take 5 ≠ "__p__") :
    (initCall.waitingReply = true ∧ initCall.timerArmed = true ∧
      initProxyCall.waitingReply = true ∧ initProxyCall.timerArmed = true) ∧
    ((runCall T cid evs).completedByReply = true ∨
        (runCall T cid evs).completedByTimeout = true →
      (runCall T cid evs).waitingReply = false) ∧
    ¬((runCall T cid evs).completedByReply = true ∧
        (runCall T cid evs).completedByTimeout = true) ∧
    (((∃ d, WireEv.msg cid d ∈ evs) ∨ WireEv.timeout ∈ evs) →
      (runCall T cid evs).completedByReply = true ∨
        (runCall T cid evs).completedByTimeout = true) ∧
    ((runCall T cid evs).waitingReply = false →
      ∀ d, callStep T cid (runCall T cid evs) (.msg cid d) = runCall T cid evs) ∧
    ((runProxyCall T cid evs).completedByReply = true ∨
        (runProxyCall T cid evs).completedByTimeout = true →
      (runProxyCall T cid evs).waitingReply = false) ∧
    ¬((runProxyCall T cid evs).completedByReply = true ∧
        (runProxyCall T cid evs).completedByTimeout = true) ∧
    (((∃ d, WireEv.msg cid d ∈ evs) ∨ WireEv.timeout ∈ evs) →
      (runProxyCall T cid evs).completedByReply = true ∨
        (runProxyCall T cid evs).completedByTimeout = true) ∧
    ((runProxyCall T cid evs).waitingReply = false →
      ∀ d, proxyStep T cid (runProxyCall T cid evs) (.msg cid d)
        = runProxyCall T cid evs) := by
  have hrun : CallInv (runCall T cid evs) :=
    callInv_run T cid evs initCall callInv_init
  have prun : ProxyInv (runProxyCall T cid evs) :=
    proxyInv_run T cid evs initProxyCall proxyInv_init
  refine ⟨⟨rfl, rfl, rfl, rfl⟩, ?_, hrun.2.2.2.1, ?_, ?_, ?_, prun.2.2.2, ?_, ?_⟩
  · intro hfl
    by_cases hw : (runCall T cid evs).waitingReply = true
    · rcases hfl with hf | hf
      · exact absurd hf (by simp [(hrun.2.1 hw).1])
      · exact absurd hf (by simp [(hrun.2.1 hw).2])
    · simpa using hw
  · intro hrel
    exact hrun.2.2.1 (run_relevant_completes T cid evs initCall callInv_init hrel)
  · intro hw d
    exact callStep_late_reply_dropped T cid hrun h hw d
  · intro hfl
    by_cases hw : (runProxyCall T cid evs).waitingReply = true
    · rcases hfl with hf | hf
      · exact absurd hf (by simp [(prun.2.1 hw).1])
      · exact absurd hf (by simp [(prun.2.1 hw).2])
    · simpa using hw
  · intro hrel
    exact prun.2.2.1
      (proxyRun_relevant_completes T cid evs initProxyCall proxyInv_init hrel)
  · intro hw d
    simp only [runProxyCall] at hw ⊢
    simp only [proxyStep]
    rw [if_neg (by simp [hw])]

/-- Witness for C2: a reply followed by a late timer event completes the
call exactly once by reply, leaves no listener, and a further late reply
is dropped. -/
theorem C2_correlator_exactly_once_witness :
    (runCall 5000 "ab-1" [WireEv.msg "ab-1" [("r", JsVal.num 3)], WireEv.timeout]).completedByReply
      = true ∧
    (runCall 5000 "ab-1" [WireEv.msg "ab-1" [("r", JsVal.num 3)], WireEv.timeout]).waitingReply
      = false ∧
    ¬((runCall 5000 "ab-1" [WireEv.msg "ab-1" [("r", JsVal.num 3)], WireEv.timeout]).completedByReply
        = true ∧
      (runCall 5000 "ab-1" [WireEv.msg "ab-1" [("r", JsVal.num 3)], WireEv.timeout]).completedByTimeout
        = true) ∧
    callStep 5000 "ab-1"
        (runCall 5000 "ab-1" [WireEv.msg "ab-1" [("r", JsVal.num 3)], WireEv.timeout])
        (.msg "ab-1" [("r", JsVal.num 9)])
      = runCall 5000 "ab-1" [WireEv.msg "ab-1" [("r", JsVal.num 3)], WireEv.timeout] := by
  have h := C2_correlator_exactly_once 5000 "ab-1"
    [WireEv.msg "ab-1" [("r", JsVal.num 3)], WireEv.timeout] (by decide)
  refine ⟨rfl, h.2.1 (Or.inl rfl), h.2.2.1, h.2.2.2.2.1 (h.2.1 (Or.inl rfl)) _⟩

/-- Claim C1: completion of a pending call by `_handleAgentAnswer`.
A reply with truthy `data.e` rejects with that error; otherwise a
`__p__`-prefixed string result chains a second one-shot listener under
the token id, whose message settles the call (error on its `data.e`,
otherwise its `data.r`); otherwise the call resolves with `data.r`.
The timeout rejects with the documented message and removes the pending
listener. -/
theorem C1_reply_and_timeout_dispatch (T : Nat) (cid : String)
    (d d2 : List (String × JsVal)) :
    (truthy (getField d "e") = true →
      callStep T cid initCall (.msg cid d) =
        { waitingReply := false, timerArmed := false, waitingPromise := none,
          outcome := some (.err (getField d "e")),
          completedByReply := true, completedByTimeout := false }) ∧
    (∀ t, truthy (getField d "e") = false →
      promiseTokenOf (getField d "r") = some t →
      callStep T cid initCall (.msg cid d) =
        { waitingReply := false, timerArmed := false, waitingPromise := some t,
          outcome := none, completedByReply := true, completedByTimeout := false } ∧
      (truthy (getField d2 "e") = true →
        callStep T cid
          { waitingReply := false, timerArmed := false, waitingPromise := some t,
            outcome := none, completedByReply := true, completedByTimeout := false }
          (.msg t d2) =
        { waitingReply := false, timerArmed := false, waitingPromise := none,
          outcome := some (.err (getField d2 "e")),
          completedByReply := true, completedByTimeout := false }) ∧
      (truthy (getField d2 "e") = false →
        callStep T cid
          { waitingReply := false, timerArmed := false, waitingPromise := some t,
            outcome := none, completedByReply := true, completedByTimeout := false }
          (.msg t d2) =
        { waitingReply := false, timerArmed := false, waitingPromise := none,
          outcome := some (.ok (getField d2 "r")),
          completedByReply := true, completedByTimeout := false })) ∧
    (truthy (getField d "e") = false →
      promiseTokenOf (getField d "r") = none →
      callStep T cid initCall (.msg cid d) =
        { waitingReply := false, timerArmed := false, waitingPromise := none,
          outcome := some (.ok (getField d "r")),
          completedByReply := true, completedByTimeout := false }) ∧
    (callStep T cid initCall .timeout =
      { waitingReply := false, timerArmed := false, waitingPromise := none,
        outcome := some (.err (.str ("Function call timed out (> " ++ toString T ++ " ms)"))),
        completedByReply := false, completedByTimeout := true }) := by
  refine ⟨?_, ?_, ?_, ?_⟩
  · intro he
    simp [callStep, initCall, he]
  · intro t he hp
    refine ⟨by simp [callStep, initCall, he, hp], ?_, ?_⟩
    · intro he2
      simp [callStep, he2]
    · intro he2
      simp [callStep, he2]
  · intro he hp
    simp [callStep, initCall, he, hp]
  · simp [callStep, initCall, timeoutMsg]

/-- Witness for C1: a concrete error reply and a concrete timeout. -/
theorem C1_reply_and_timeout_dispatch_witness :
    callStep 5000 "ab-1" initCall (.msg "ab-1" [("e", JsVal.str "boom")]) =
      { waitingReply := false, timerArmed := false, waitingPromise := none,
        outcome := some (.err (JsVal.str "boom")),
        completedByReply := true, completedByTimeout := false } ∧
    callStep 5000 "ab-1" initCall .timeout =
      { waitingReply := false, timerArmed := false, waitingPromise := none,
        outcome := some (.err (.str "Function call timed out (> 5000 ms)")),
        completedByReply := false, completedByTimeout := true } := by
  have h := C1_reply_and_timeout_dispatch 5000 "ab-1" [("e", JsVal.str "boom")] []
  exact ⟨h.1 rfl, h.2.2.2⟩

/-- Witness for the amended C4 at concrete values. -/
theorem C4_wildcard_checks_witness :
    createRequest "Foo" none [] "*" "d" = .error "Agent must be specified" ∧
    callStaticRequest "Foo" "f" [] 0 "a1" "*" = .error "You must specify a domain" ∧
    (getInstanceRequest "Foo" "x" "*" "*").isOk = true := by
  have h := C4_wildcard_checks "Foo" "f" none [] 0 "a1" "d" "x"
    (by decide) (by decide)
  exact ⟨h.1, h.2.2.1, h.2.2.2.2.2⟩

end Vrpc
